import Mathlib

/-!
# Verification of the circlecore detection orchestrator

This file is a shallow embedding of `src/circleguard/circleguard.py`
(the `Circleguard` class: `__init__`, `run`, `set_options`) together with
the minimal spec-modelled interfaces of its collaborators (`Comparer`,
`Investigator`, the `Check` container) that are referenced by `run` but
whose sources are not among the inspected files.

`Circleguard.run` is a Python generator.  We embed its body as the list of
observable events it executes in order (`runTrace`): the load request, the
temporary slider `Library` connection and disconnection, each
`lookup_by_id` call, each yielded result, and an uncaught exception.
Python generator semantics — the body runs only as the consumer pulls, and
each pull executes the body exactly up to the next `yield` — is embedded
by `execPulls`, which maps a trace and a number of pulls to the prefix of
the trace actually executed.
-/

set_option autoImplicit false

/-- A loaded replay as `run` uses it: only the player identity and the
`map_id` attribute read at `circleguard.py` line 113 matter here. -/
structure Replay where
  player : Nat
  mapId : Nat
deriving DecidableEq

/-- The detect configuration `c.detect` read by `run`: membership tests
`Detect.STEAL in d` and `Detect.RELAX in d`, and the thresholds
`d.steal_thresh` / `d.ur_thresh` passed to the detectors. -/
structure DetectCfg where
  steal : Bool
  relax : Bool
  steal_thresh : Nat
  ur_thresh : Nat
deriving DecidableEq

/-- Modelled from the spec: the `Check` value object (its class is not
among the inspected sources; `run` calls `c.detect`, `c.all_replays()` and
`c.all_replays2()`).  Per the spec it groups a primary replay set, an
optional secondary set, and the enabled-detector configuration. -/
structure Check where
  detect : DetectCfg
  replays : List Replay
  replays2 : Option (List Replay)
deriving DecidableEq

/-- A result yielded by `run`: a comparison result for a pair of replays
(steal) or an investigation result for a single replay (relax). -/
inductive Result where
  | steal (r1 r2 : Replay)
  | relax (r : Replay)
deriving DecidableEq

/-- One observable event of the generator body of `Circleguard.run`:
the `c.load(self.loader)` call, the temporary `Library` connection at line
108 and its `close()` at line 119, a `library.lookup_by_id` call at line
113, a yielded result, or an uncaught collaborator exception propagating
out of the generator. -/
inductive Event where
  | load
  | connectLibrary
  | lookup (mapId : Nat)
  | yieldResult (r : Result)
  | closeLibrary
  | raiseError (mapId : Nat)
deriving DecidableEq

/-- The cacher's mutable `should_cache` attribute set by `set_options`. -/
structure Cacher where
  should_cache : Bool
deriving DecidableEq

/-- The `Circleguard` instance attributes that `run` and `set_options`
read: `self.cache`, `self.cacher` (None when `db_path` was None) and
`self.library` (None when `slider_dir` was None, so `run` must connect to
a temporary `Library`). -/
structure CGState where
  cache : Bool
  cacher : Option Cacher
  library : Option Nat
deriving DecidableEq

/-- `Circleguard.__init__` (circleguard.py lines 44-65): `self.cache` is
the argument, `self.cacher` is a `Cacher(self.cache, db_path)` when a
`db_path` was given and stays None otherwise, and `self.library` is a
`Library(slider_dir)` when a `slider_dir` was given and stays None
otherwise (a temporary directory is prepared instead). -/
def Circleguard.init (dbPath : Option Nat) (sliderDir : Option Nat)
    (cache : Bool) : CGState :=
  { cache := cache
  , cacher := dbPath.map (fun _ => { should_cache := cache })
  , library := sliderDir }

/-- A Python-level error as observed by the caller of `set_options`. -/
inductive PyError where
  | attributeError
deriving DecidableEq

/-- `Circleguard.set_options` (circleguard.py lines 152-169).  For a
non-None `cache` argument the loop body first assigns `self.cache = cache`
and then assigns `self.cacher.should_cache = cache`; when `self.cacher` is
None the second assignment raises `AttributeError`, after `self.cache` has
already been updated. -/
def CGState.set_options (st : CGState) (cache : Option Bool) :
    CGState × Option PyError :=
  match cache with
  | none => (st, none)
  | some b =>
    let st1 := { st with cache := b }
    match st1.cacher with
    | none => (st1, some PyError.attributeError)
    | some cr =>
      ({ st1 with cacher := some { cr with should_cache := b } }, none)

/-- All unordered pairs of a list, each evaluated once, in stable
enumeration order. -/
def allPairs : List Replay → List Result
  | [] => []
  | r :: rs => rs.map (Result.steal r) ++ allPairs rs

/-- All (primary, secondary) pairs, in stable enumeration order. -/
def crossPairs (rs1 rs2 : List Replay) : List Result :=
  match rs1 with
  | [] => []
  | r :: rs => rs2.map (Result.steal r) ++ crossPairs rs rs2

/-- Modelled from the spec: `Comparer.compare`
(src/circleguard/comparer.py is not among the inspected sources).  The
spec fixes the enumeration contract: with no secondary set every
unordered pair of the primary set is evaluated exactly once, with a
secondary set every (primary, secondary) pair is evaluated exactly once,
and every evaluated pair produces exactly one comparison result (a
numeric verdict or an insufficient-data result — the distinction does
not matter to the claims below, so a result is identified by its pair). -/
def comparerCompare (rs1 : List Replay) (rs2 : Option (List Replay)) :
    List Result :=
  match rs2 with
  | none => allPairs rs1
  | some l2 => crossPairs rs1 l2

/-- The relax-check loop of `run` (circleguard.py lines 112-115): for each
replay of `c.all_replays()` in order, call
`library.lookup_by_id(replay.map_id, download=True, save=True)`, build an
`Investigator` and yield its results.  `Investigator.investigate` is not
among the inspected sources; modelled from the spec, it produces exactly
one result for its replay.  The lookup call sits in the loop with no
exception handler, so a provider failure propagates and ends the loop.
The returned flag records whether the loop raised. -/
def relaxLoop (p : Nat → Option Unit) : List Replay → List Event × Bool
  | [] => ([], false)
  | r :: rs =>
    match p r.mapId with
    | none => ([Event.lookup r.mapId, Event.raiseError r.mapId], true)
    | some _ =>
      (Event.lookup r.mapId :: Event.yieldResult (Result.relax r)
        :: (relaxLoop p rs).1,
       (relaxLoop p rs).2)

/-- The steal-check block of `run` (circleguard.py lines 98-102): when
`Detect.STEAL in d`, build a `Comparer` over `c.all_replays()` and
`c.all_replays2()` and yield each of its comparison results. -/
def stealEvents (c : Check) : List Event :=
  if c.detect.steal then
    (comparerCompare c.replays c.replays2).map Event.yieldResult
  else []

/-- The relax-check block of `run` (circleguard.py lines 105-119): when
`Detect.RELAX in d`, connect to a temporary `Library` if `self.library`
is None, run the investigation loop, and — only when `self.library` is
None and the loop finished without raising — `close()` the temporary
library.  There is no `try`/`finally`, so a raised lookup skips the
`close()` call. -/
def relaxEvents (st : CGState) (c : Check) (p : Nat → Option Unit) :
    List Event :=
  if c.detect.relax then
    match st.library with
    | none =>
      Event.connectLibrary :: (relaxLoop p c.replays).1
        ++ (if (relaxLoop p c.replays).2 then [] else [Event.closeLibrary])
    | some _ => (relaxLoop p c.replays).1
  else []

/-- The full event trace of the generator body of `Circleguard.run`
(circleguard.py lines 92-119): first `c.load(self.loader)`, then the
steal block, then the relax block.  `p` is the external beatmap-asset
provider: `p m = none` means `lookup_by_id` raises for map id `m`. -/
def runTrace (st : CGState) (c : Check) (p : Nat → Option Unit) :
    List Event :=
  Event.load :: (stealEvents c ++ relaxEvents st c p)

/-- Whether an event is a `yield` of the generator. -/
def isYield : Event → Bool
  | Event.yieldResult _ => true
  | _ => false

/-- Whether an event is a yielded steal (comparison) result. -/
def isStealRes : Event → Bool
  | Event.yieldResult (Result.steal _ _) => true
  | _ => false

/-- Whether an event is a yielded relax (investigation) result. -/
def isRelaxRes : Event → Bool
  | Event.yieldResult (Result.relax _) => true
  | _ => false

/-- Whether an event belongs to the relax computation: the library
connection, a beatmap lookup, a relax result, the library disconnection,
or a lookup error. -/
def isRelaxComp : Event → Bool
  | Event.connectLibrary => true
  | Event.lookup _ => true
  | Event.yieldResult (Result.relax _) => true
  | Event.closeLibrary => true
  | Event.raiseError _ => true
  | _ => false

/-- Whether an event is a `lookup_by_id` call. -/
def isLookup : Event → Bool
  | Event.lookup _ => true
  | _ => false

/-- Whether an event is an uncaught exception. -/
def isRaise : Event → Bool
  | Event.raiseError _ => true
  | _ => false

/-- Count of the events satisfying `P` in a trace. -/
def countE (P : Event → Bool) : List Event → Nat
  | [] => 0
  | e :: tr => (if P e then 1 else 0) + countE P tr

/-- Number of results yielded along a trace. -/
def numYields (tr : List Event) : Nat := countE isYield tr

/-- Number of uncaught exceptions along a trace (0 or 1 in any `runTrace`). -/
def numRaises (tr : List Event) : Nat := countE isRaise tr

/-- The subtrace of the events satisfying `P`, in order. -/
def selectE (P : Event → Bool) : List Event → List Event
  | [] => []
  | e :: tr => if P e then e :: selectE P tr else selectE P tr

/-- Python generator pull semantics: `execPulls tr k` is the part of the
generator body executed after the consumer has pulled `k` times from the
stream returned by `run`.  Each pull runs the body up to and including the
next `yield`; a pull on an exhausted body runs the remaining tail (and the
consumer sees `StopIteration`).  With `k = 0` — the consumer merely called
`run` and never pulled — nothing at all executes. -/
def execPulls : List Event → Nat → List Event
  | _, 0 => []
  | [], _ + 1 => []
  | e :: tr, k + 1 =>
    if isYield e then e :: execPulls tr k else e :: execPulls tr (k + 1)

/-- Closed form of the relax loop when every lookup succeeds: per replay,
one lookup followed by one investigation result. -/
def relaxOk : List Replay → List Event
  | [] => []
  | r :: rs =>
    Event.lookup r.mapId :: Event.yieldResult (Result.relax r) :: relaxOk rs

/-- Whether an event is the temporary `Library` connection. -/
def isConnect : Event → Bool
  | Event.connectLibrary => true
  | _ => false

/-- Whether an event is the `Library.close()` call. -/
def isClose : Event → Bool
  | Event.closeLibrary => true
  | _ => false

/-- Number of `Library` connections made along a trace. -/
def numConnects (tr : List Event) : Nat := countE isConnect tr

/-- Number of `Library.close()` calls made along a trace. -/
def numCloses (tr : List Event) : Nat := countE isClose tr

/-- Number of `lookup_by_id` calls made along a trace. -/
def numLookups (tr : List Event) : Nat := countE isLookup tr

/-- A `Circleguard` built with `db_path=None` and `slider_dir=None`:
no cacher, and the temporary slider directory (so `self.library` is None). -/
def stTmp : CGState := { cache := true, cacher := none, library := none }

/-- A provider for which every map lookup succeeds. -/
def pAll : Nat → Option Unit := fun _ => some ()

/-- A provider for which the lookup of map id 1 raises and every other
lookup succeeds. -/
def pFail1 : Nat → Option Unit := fun m => if m = 1 then none else some ()

/-- A check enabling both detectors over two replays of map 5. -/
def checkBothW : Check :=
  { detect := { steal := true, relax := true, steal_thresh := 10, ur_thresh := 20 }
  , replays := [⟨1, 5⟩, ⟨2, 5⟩], replays2 := none }

/-- A relax-only check over a single replay. -/
def checkRelaxOne : Check :=
  { detect := { steal := false, relax := true, steal_thresh := 0, ur_thresh := 20 }
  , replays := [⟨1, 5⟩], replays2 := none }

/-- A relax-only check over two replays of distinct maps 1 and 2. -/
def checkRelaxTwo : Check :=
  { detect := { steal := false, relax := true, steal_thresh := 0, ur_thresh := 20 }
  , replays := [⟨1, 1⟩, ⟨2, 2⟩], replays2 := none }

/-- A relax-only check over three replays whose middle replay is on
map 1 (the map `pFail1` fails to resolve). -/
def checkRelaxThree : Check :=
  { detect := { steal := false, relax := true, steal_thresh := 0, ur_thresh := 20 }
  , replays := [⟨1, 2⟩, ⟨2, 1⟩, ⟨3, 3⟩], replays2 := none }

/-- A check with no detector enabled over a non-empty replay set. -/
def checkNoDetect : Check :=
  { detect := { steal := false, relax := false, steal_thresh := 0, ur_thresh := 0 }
  , replays := [⟨1, 5⟩, ⟨2, 5⟩], replays2 := none }

/-- A check with both detectors enabled over an empty replay set. -/
def checkEmptySet : Check :=
  { detect := { steal := true, relax := true, steal_thresh := 10, ur_thresh := 20 }
  , replays := [], replays2 := none }

/-- A relax-only check over two replays that share map id 5. -/
def checkSharedMap : Check :=
  { detect := { steal := false, relax := true, steal_thresh := 0, ur_thresh := 20 }
  , replays := [⟨1, 5⟩, ⟨2, 5⟩], replays2 := none }

/-- A steal-only check over two replays. -/
def checkStealOnly : Check :=
  { detect := { steal := true, relax := false, steal_thresh := 10, ur_thresh := 0 }
  , replays := [⟨1, 5⟩, ⟨2, 5⟩], replays2 := none }

/-! ## Basic lemmas about traces, counts and selections -/

lemma countE_append (P : Event → Bool) (l1 l2 : List Event) :
    countE P (l1 ++ l2) = countE P l1 + countE P l2 := by
  induction l1 with
  | nil => simp [countE]
  | cons e l ih => simp [countE, ih, Nat.add_assoc]

lemma countE_eq_zero (P : Event → Bool) (l : List Event)
    (h : ∀ e ∈ l, P e = false) : countE P l = 0 := by
  induction l with
  | nil => rfl
  | cons e l ih =>
    have he : P e = false := h e (List.mem_cons_self e l)
    simp [countE, he]
    exact ih fun a ha => h a (List.mem_cons_of_mem e ha)

lemma selectE_append (P : Event → Bool) (l1 l2 : List Event) :
    selectE P (l1 ++ l2) = selectE P l1 ++ selectE P l2 := by
  induction l1 with
  | nil => simp [selectE]
  | cons e l ih =>
    by_cases he : P e = true
    · simp [selectE, he, ih]
    · simp at he
      simp [selectE, he, ih]

lemma selectE_eq_nil (P : Event → Bool) (l : List Event)
    (h : ∀ e ∈ l, P e = false) : selectE P l = [] := by
  induction l with
  | nil => rfl
  | cons e l ih =>
    have he : P e = false := h e (List.mem_cons_self e l)
    simp [selectE, he]
    exact ih fun a ha => h a (List.mem_cons_of_mem e ha)

/-! ## Lemmas about the spec-modelled comparer and the relax loop -/

lemma mem_allPairs (x : Result) : ∀ (rs : List Replay), x ∈ allPairs rs →
    ∃ a b, x = Result.steal a b := by
  intro rs
  induction rs with
  | nil => intro h; cases h
  | cons r rs ih =>
    intro h
    rcases List.mem_append.1 h with h1 | h2
    · rcases List.mem_map.1 h1 with ⟨b, _, hb⟩
      exact ⟨r, b, hb.symm⟩
    · exact ih h2

lemma mem_crossPairs (x : Result) : ∀ (rs1 rs2 : List Replay),
    x ∈ crossPairs rs1 rs2 → ∃ a b, x = Result.steal a b := by
  intro rs1
  induction rs1 with
  | nil => intro rs2 h; cases h
  | cons r rs ih =>
    intro rs2 h
    rcases List.mem_append.1 h with h1 | h2
    · rcases List.mem_map.1 h1 with ⟨b, _, hb⟩
      exact ⟨r, b, hb.symm⟩
    · exact ih rs2 h2

lemma mem_comparerCompare (x : Result) (rs1 : List Replay)
    (rs2 : Option (List Replay)) (h : x ∈ comparerCompare rs1 rs2) :
    ∃ a b, x = Result.steal a b := by
  cases rs2 with
  | none => exact mem_allPairs x rs1 h
  | some l2 => exact mem_crossPairs x rs1 l2 h

lemma mem_stealEvents (e : Event) (c : Check) (h : e ∈ stealEvents c) :
    ∃ a b, e = Event.yieldResult (Result.steal a b) := by
  unfold stealEvents at h
  by_cases hs : c.detect.steal = true
  · rw [hs] at h
    simp only [if_pos rfl] at h
    rcases List.mem_map.1 h with ⟨x, hx, hex⟩
    rcases mem_comparerCompare x c.replays c.replays2 hx with ⟨a, b, hab⟩
    exact ⟨a, b, by rw [← hex, hab]⟩
  · simp at hs
    rw [hs] at h
    simp at h

lemma mem_relaxOk (e : Event) : ∀ (rs : List Replay), e ∈ relaxOk rs →
    (∃ m, e = Event.lookup m) ∨ (∃ r, e = Event.yieldResult (Result.relax r)) := by
  intro rs
  induction rs with
  | nil => intro h; cases h
  | cons r rs ih =>
    intro h
    rw [relaxOk] at h
    rcases List.mem_cons.1 h with rfl | h
    · exact Or.inl ⟨r.mapId, rfl⟩
    rcases List.mem_cons.1 h with rfl | h
    · exact Or.inr ⟨r, rfl⟩
    · exact ih h

lemma relaxLoop_ok (p : Nat → Option Unit) : ∀ (rs : List Replay),
    (∀ r ∈ rs, p r.mapId ≠ none) → relaxLoop p rs = (relaxOk rs, false) := by
  intro rs
  induction rs with
  | nil => intro _; rfl
  | cons r rs ih =>
    intro h
    have hr : p r.mapId ≠ none := h r (List.mem_cons_self r rs)
    cases hp : p r.mapId with
    | none => exact absurd hp hr
    | some u =>
      have ht : relaxLoop p rs = (relaxOk rs, false) :=
        ih fun a ha => h a (List.mem_cons_of_mem r ha)
      simp [relaxLoop, hp, ht, relaxOk]

lemma relaxLoop_err (p : Nat → Option Unit) (r : Replay) (rs2 : List Replay)
    (h2 : p r.mapId = none) : ∀ (rs1 : List Replay),
    (∀ a ∈ rs1, p a.mapId ≠ none) →
    relaxLoop p (rs1 ++ r :: rs2)
      = (relaxOk rs1 ++ [Event.lookup r.mapId, Event.raiseError r.mapId], true) := by
  intro rs1
  induction rs1 with
  | nil => intro _; simp [relaxLoop, h2, relaxOk]
  | cons a rs ih =>
    intro h
    have ha : p a.mapId ≠ none := h a (List.mem_cons_self a rs)
    cases hp : p a.mapId with
    | none => exact absurd hp ha
    | some u =>
      have ht := ih fun x hx => h x (List.mem_cons_of_mem a hx)
      simp [relaxLoop, hp, ht, relaxOk]

lemma mem_relaxEvents (e : Event) (st : CGState) (c : Check)
    (p : Nat → Option Unit) (h : e ∈ relaxEvents st c p) :
    e = Event.connectLibrary ∨ e = Event.closeLibrary ∨
    (∃ m, e = Event.lookup m) ∨ (∃ r, e = Event.yieldResult (Result.relax r)) ∨
    (∃ m, e = Event.raiseError m) := by
  have hloop : ∀ q rs, e ∈ (relaxLoop q rs).1 →
      (∃ m, e = Event.lookup m) ∨ (∃ r, e = Event.yieldResult (Result.relax r)) ∨
      (∃ m, e = Event.raiseError m) := by
    intro q rs
    induction rs with
    | nil => intro hh; cases hh
    | cons a rs ih =>
      intro hh
      cases hq : q a.mapId with
      | none =>
        rw [relaxLoop, hq] at hh
        rcases List.mem_cons.1 hh with rfl | hh
        · exact Or.inl ⟨a.mapId, rfl⟩
        rcases List.mem_cons.1 hh with rfl | hh
        · exact Or.inr (Or.inr ⟨a.mapId, rfl⟩)
        · cases hh
      | some u =>
        rw [relaxLoop, hq] at hh
        rcases List.mem_cons.1 hh with rfl | hh
        · exact Or.inl ⟨a.mapId, rfl⟩
        rcases List.mem_cons.1 hh with rfl | hh
        · exact Or.inr (Or.inl ⟨a, rfl⟩)
        · exact ih hh
  unfold relaxEvents at h
  by_cases hr : c.detect.relax = true
  · rw [hr] at h
    simp only [if_pos rfl] at h
    cases hlib : st.library with
    | none =>
      rw [hlib] at h
      rcases List.mem_cons.1 h with rfl | h
      · exact Or.inl rfl
      rcases List.mem_append.1 h with h1 | h2
      · rcases hloop p c.replays h1 with h' | h' | h'
        · exact Or.inr (Or.inr (Or.inl h'))
        · exact Or.inr (Or.inr (Or.inr (Or.inl h')))
        · exact Or.inr (Or.inr (Or.inr (Or.inr h')))
      · by_cases he : (relaxLoop p c.replays).2 = true
        · rw [if_pos he] at h2; cases h2
        · rw [if_neg he] at h2
          rcases List.mem_cons.1 h2 with rfl | h2
          · exact Or.inr (Or.inl rfl)
          · cases h2
    | some x =>
      rw [hlib] at h
      rcases hloop p c.replays h with h' | h' | h'
      · exact Or.inr (Or.inr (Or.inl h'))
      · exact Or.inr (Or.inr (Or.inr (Or.inl h')))
      · exact Or.inr (Or.inr (Or.inr (Or.inr h')))
  · simp at hr
    rw [hr] at h
    simp at h

/-! ## Pull-semantics lemmas -/

lemma execPulls_zero (tr : List Event) : execPulls tr 0 = [] := by
  cases tr <;> rfl

lemma execPulls_prefix : ∀ (tr : List Event) (k : Nat),
    ∃ rest, execPulls tr k ++ rest = tr := by
  intro tr
  induction tr with
  | nil => intro k; cases k <;> exact ⟨[], rfl⟩
  | cons e tr ih =>
    intro k
    cases k with
    | zero => exact ⟨e :: tr, rfl⟩
    | succ k =>
      by_cases hy : isYield e = true
      · rcases ih k with ⟨rest, hrest⟩
        exact ⟨rest, by simp [execPulls, hy, hrest]⟩
      · simp at hy
        rcases ih (k + 1) with ⟨rest, hrest⟩
        exact ⟨rest, by simp [execPulls, hy, hrest]⟩

lemma mem_execPulls {e : Event} {tr : List Event} {k : Nat}
    (h : e ∈ execPulls tr k) : e ∈ tr := by
  rcases execPulls_prefix tr k with ⟨rest, hrest⟩
  rw [← hrest]
  exact List.mem_append_left rest h

lemma numYields_execPulls_le : ∀ (tr : List Event) (k : Nat),
    numYields (execPulls tr k) ≤ k := by
  intro tr
  induction tr with
  | nil => intro k; cases k <;> simp [execPulls, numYields, countE]
  | cons e tr ih =>
    intro k
    cases k with
    | zero => simp [execPulls, numYields, countE]
    | succ k =>
      by_cases hy : isYield e = true
      · simp only [execPulls, hy, if_pos]
        have := ih k
        simp [numYields, countE, hy] at this ⊢
        omega
      · simp at hy
        simp only [execPulls, hy]
        have := ih (k + 1)
        simp [numYields, countE, hy] at this ⊢
        omega

lemma execPulls_drain : ∀ (tr : List Event), execPulls tr (numYields tr + 1) = tr := by
  intro tr
  induction tr with
  | nil => rfl
  | cons e tr ih =>
    by_cases hy : isYield e = true
    · have hn : numYields (e :: tr) = numYields tr + 1 := by
        simp [numYields, countE, hy]
        omega
      rw [hn]
      simp [execPulls, hy, ih]
    · simp at hy
      have hn : numYields (e :: tr) = numYields tr := by
        simp [numYields, countE, hy]
      rw [hn]
      simp [execPulls, hy, ih]

lemma execPulls_append_left : ∀ (l l2 : List Event) (k : Nat),
    k ≤ numYields l → execPulls (l ++ l2) k = execPulls l k := by
  intro l
  induction l with
  | nil =>
    intro l2 k hk
    simp [numYields, countE] at hk
    subst hk
    simp [execPulls_zero]
  | cons e l ih =>
    intro l2 k hk
    cases k with
    | zero => simp [execPulls_zero]
    | succ k =>
      by_cases hy : isYield e = true
      · have hk' : k ≤ numYields l := by
          simp [numYields, countE, hy] at hk ⊢
          omega
        simp [execPulls, hy, ih l2 k hk']
      · simp at hy
        have hk' : k + 1 ≤ numYields l := by
          simp [numYields, countE, hy] at hk ⊢
          exact hk
        simp [execPulls, hy, ih l2 (k + 1) hk']

lemma getLast_cons_ne_nil (e : Event) (l : List Event) (h : l ≠ []) :
    (e :: l).getLast? = l.getLast? := by
  cases l with
  | nil => exact absurd rfl h
  | cons a l => simp [List.getLast?]

lemma execPulls_stops_at_yield : ∀ (tr : List Event) (k : Nat),
    execPulls tr (k + 1) = tr ∨
    ∃ r, (execPulls tr (k + 1)).getLast? = some (Event.yieldResult r) := by
  intro tr
  induction tr with
  | nil => intro k; exact Or.inl rfl
  | cons e tr ih =>
    intro k
    by_cases hy : isYield e = true
    · obtain ⟨r, rfl⟩ : ∃ r, e = Event.yieldResult r := by
        cases e <;> simp [isYield] at hy ⊢
      cases k with
      | zero =>
        refine Or.inr ⟨r, ?_⟩
        simp [execPulls, isYield, execPulls_zero]
      | succ k =>
        have hstep : execPulls (Event.yieldResult r :: tr) (k + 2)
            = Event.yieldResult r :: execPulls tr (k + 1) := by
          simp [execPulls, isYield]
        rcases ih k with h | ⟨s, hs⟩
        · exact Or.inl (by rw [hstep, h])
        · refine Or.inr ⟨s, ?_⟩
          have hne : execPulls tr (k + 1) ≠ [] := by
            intro hnil
            rw [hnil] at hs
            simp [List.getLast?] at hs
          rw [hstep, getLast_cons_ne_nil _ _ hne, hs]
    · simp at hy
      have hstep : execPulls (e :: tr) (k + 1) = e :: execPulls tr (k + 1) := by
        simp [execPulls, hy]
      rcases ih k with h | ⟨s, hs⟩
      · exact Or.inl (by rw [hstep, h])
      · refine Or.inr ⟨s, ?_⟩
        have hne : execPulls tr (k + 1) ≠ [] := by
          intro hnil
          rw [hnil] at hs
          simp [List.getLast?] at hs
        rw [hstep, getLast_cons_ne_nil _ _ hne, hs]

/-! ## Ordering and selection helper lemmas -/

lemma pairwise_of_no_left (P Q : Event → Bool) : ∀ (l : List Event),
    (∀ a ∈ l, P a = false) →
    List.Pairwise (fun a b => ¬(P a = true ∧ Q b = true)) l := by
  intro l
  induction l with
  | nil => intro _; exact List.Pairwise.nil
  | cons e l ih =>
    intro h
    refine List.Pairwise.cons ?_ (ih fun a ha => h a (List.mem_cons_of_mem e ha))
    intro b _ hb
    rw [h e (List.mem_cons_self e l)] at hb
    exact absurd hb.1 (by simp)

lemma pairwise_of_no_right (P Q : Event → Bool) : ∀ (l : List Event),
    (∀ b ∈ l, Q b = false) →
    List.Pairwise (fun a b => ¬(P a = true ∧ Q b = true)) l := by
  intro l
  induction l with
  | nil => intro _; exact List.Pairwise.nil
  | cons e l ih =>
    intro h
    refine List.Pairwise.cons ?_ (ih fun a ha => h a (List.mem_cons_of_mem e ha))
    intro b hbl hb
    rw [h b (List.mem_cons_of_mem e hbl)] at hb
    exact absurd hb.2 (by simp)

lemma pairwise_split (P Q : Event → Bool) (l1 l2 : List Event)
    (h1 : ∀ a ∈ l1, P a = false) (h2 : ∀ b ∈ l2, Q b = false) :
    List.Pairwise (fun a b => ¬(P a = true ∧ Q b = true)) (l1 ++ l2) := by
  rw [List.pairwise_append]
  refine ⟨pairwise_of_no_left P Q l1 h1, pairwise_of_no_right P Q l2 h2, ?_⟩
  intro a ha b _ hab
  rw [h1 a ha] at hab
  exact absurd hab.1 (by simp)

lemma selectE_cons_of_false (P : Event → Bool) (e : Event) (l : List Event)
    (h : P e = false) : selectE P (e :: l) = selectE P l := by
  simp [selectE, h]

lemma selectE_relaxOk_lookup : ∀ (rs : List Replay),
    selectE isLookup (relaxOk rs) = rs.map (fun r => Event.lookup r.mapId) := by
  intro rs
  induction rs with
  | nil => rfl
  | cons r rs ih => simp [relaxOk, selectE, isLookup, ih]

lemma selectE_relaxOk_relaxRes : ∀ (rs : List Replay),
    selectE isRelaxRes (relaxOk rs)
      = rs.map (fun r => Event.yieldResult (Result.relax r)) := by
  intro rs
  induction rs with
  | nil => rfl
  | cons r rs ih => simp [relaxOk, selectE, isRelaxRes, ih]

lemma selectE_stealEvents_isLookup (c : Check) :
    selectE isLookup (stealEvents c) = [] := by
  refine selectE_eq_nil _ _ ?_
  intro e he
  rcases mem_stealEvents e c he with ⟨a, b, rfl⟩
  rfl

lemma selectE_stealEvents_isRelaxRes (c : Check) :
    selectE isRelaxRes (stealEvents c) = [] := by
  refine selectE_eq_nil _ _ ?_
  intro e he
  rcases mem_stealEvents e c he with ⟨a, b, rfl⟩
  rfl

lemma countE_stealEvents_eq_zero (c : Check) (P : Event → Bool)
    (h : ∀ a b, P (Event.yieldResult (Result.steal a b)) = false) :
    countE P (stealEvents c) = 0 := by
  refine countE_eq_zero _ _ ?_
  intro e he
  rcases mem_stealEvents e c he with ⟨a, b, rfl⟩
  exact h a b

lemma countE_relaxOk_eq_zero (rs : List Replay) (P : Event → Bool)
    (h1 : ∀ m, P (Event.lookup m) = false)
    (h2 : ∀ r, P (Event.yieldResult (Result.relax r)) = false) :
    countE P (relaxOk rs) = 0 := by
  refine countE_eq_zero _ _ ?_
  intro e he
  rcases mem_relaxOk e rs he with ⟨m, rfl⟩ | ⟨r, rfl⟩
  · exact h1 m
  · exact h2 r

/-! ## Claim theorems -/

/-- C1: for every Check with both the steal and relax detectors enabled,
the trace of `run` never places a relax computation event (library
connection, beatmap lookup, relax result, library close, or lookup error)
before a steal comparison result: every steal result is yielded before any
relax computation begins, in detector-declaration order. -/
theorem run_steal_results_precede_relax (st : CGState) (c : Check)
    (p : Nat → Option Unit) (_hs : c.detect.steal = true)
    (_hr : c.detect.relax = true) :
    List.Pairwise (fun a b => ¬(isRelaxComp a = true ∧ isStealRes b = true))
      (runTrace st c p) := by
  have h1 : ∀ a ∈ Event.load :: stealEvents c, isRelaxComp a = false := by
    intro a ha
    rcases List.mem_cons.1 ha with rfl | ha
    · rfl
    · rcases mem_stealEvents a c ha with ⟨x, y, rfl⟩
      rfl
  have h2 : ∀ b ∈ relaxEvents st c p, isStealRes b = false := by
    intro b hb
    rcases mem_relaxEvents b st c p hb with rfl | rfl | ⟨m, rfl⟩ | ⟨r, rfl⟩ | ⟨m, rfl⟩
      <;> rfl
  have key := pairwise_split isRelaxComp isStealRes
    (Event.load :: stealEvents c) (relaxEvents st c p) h1 h2
  simpa [runTrace] using key

/-- Witness for C1 at a concrete both-detectors Check over two replays. -/
theorem run_steal_results_precede_relax_witness :
    List.Pairwise (fun a b => ¬(isRelaxComp a = true ∧ isStealRes b = true))
      (runTrace stTmp checkBothW pAll) :=
  run_steal_results_precede_relax stTmp checkBothW pAll rfl rfl

/-- C2 counterexample: with a temporary slider directory, a relax-only
Check over one replay, and a consumer that pulls the single result and
then abandons the stream before exhaustion, the library handle has been
acquired but `library.close()` is never executed — the generator body has
no `try`/`finally`, so early abandonment leaks the handle.  (The `close`
is present in the full body, but only the drain pull would reach it.) -/
theorem run_abandon_leaks_library_cex :
    numYields (runTrace stTmp checkRelaxOne pAll) = 1 ∧
    Event.connectLibrary ∈ execPulls (runTrace stTmp checkRelaxOne pAll) 1 ∧
    Event.closeLibrary ∈ runTrace stTmp checkRelaxOne pAll ∧
    Event.closeLibrary ∉ execPulls (runTrace stTmp checkRelaxOne pAll) 1 := by
  decide

/-- C2 (amended): with a temporary slider directory, relax enabled, and
every lookup succeeding, `run` acquires the library handle exactly once
per run and closes it exactly once — but the `close` executes only on the
pull that drains the stream; a consumer that has pulled every result and
abandons the stream without the final drain pull leaves the handle
unreleased. -/
theorem run_library_release_on_drain_only (st : CGState) (c : Check)
    (p : Nat → Option Unit) (hlib : st.library = none)
    (hr : c.detect.relax = true) (hp : ∀ r ∈ c.replays, p r.mapId ≠ none) :
    numConnects (runTrace st c p) = 1 ∧
    numCloses (runTrace st c p) = 1 ∧
    Event.closeLibrary ∈
      execPulls (runTrace st c p) (numYields (runTrace st c p) + 1) ∧
    Event.closeLibrary ∉
      execPulls (runTrace st c p) (numYields (runTrace st c p)) := by
  have hloop := relaxLoop_ok p c.replays hp
  have hre : relaxEvents st c p
      = Event.connectLibrary :: relaxOk c.replays ++ [Event.closeLibrary] := by
    simp [relaxEvents, hr, hlib, hloop]
  have hTr : runTrace st c p
      = (Event.load :: stealEvents c
          ++ Event.connectLibrary :: relaxOk c.replays)
        ++ [Event.closeLibrary] := by
    simp [runTrace, hre]
  have hclose_pre : Event.closeLibrary ∉
      Event.load :: stealEvents c
        ++ Event.connectLibrary :: relaxOk c.replays := by
    intro hmem
    rcases List.mem_cons.1 hmem with h | hmem
    · cases h
    rcases List.mem_append.1 hmem with h | hmem
    · rcases mem_stealEvents _ c h with ⟨a, b, h⟩
      cases h
    rcases List.mem_cons.1 hmem with h | hmem
    · cases h
    · rcases mem_relaxOk _ c.replays hmem with ⟨m, h⟩ | ⟨r, h⟩ <;> cases h
  have hny : numYields (runTrace st c p)
      = numYields (Event.load :: stealEvents c
          ++ Event.connectLibrary :: relaxOk c.replays) := by
    rw [hTr]
    show countE isYield _ = countE isYield _
    rw [countE_append]
    rfl
  refine ⟨?_, ?_, ?_, ?_⟩
  · show countE isConnect (runTrace st c p) = 1
    rw [hTr, countE_append, countE_append]
    have h1 : countE isConnect [Event.load] = 0 := rfl
    have h2 : countE isConnect (stealEvents c) = 0 :=
      countE_stealEvents_eq_zero c isConnect (fun a b => rfl)
    have h3 : countE isConnect (Event.connectLibrary :: relaxOk c.replays)
        = 1 := by
      show 1 + countE isConnect (relaxOk c.replays) = 1
      rw [countE_relaxOk_eq_zero c.replays isConnect (fun m => rfl)
        (fun r => rfl)]
    show countE isConnect (Event.load :: stealEvents c) + _ + _ = 1
    have h4 : countE isConnect (Event.load :: stealEvents c)
        = 0 + countE isConnect (stealEvents c) := rfl
    rw [h4, h2, h3]
    rfl
  · show countE isClose (runTrace st c p) = 1
    rw [hTr, countE_append, countE_append]
    have h2 : countE isClose (stealEvents c) = 0 :=
      countE_stealEvents_eq_zero c isClose (fun a b => rfl)
    have h3 : countE isClose (Event.connectLibrary :: relaxOk c.replays)
        = 0 := by
      show 0 + countE isClose (relaxOk c.replays) = 0
      rw [countE_relaxOk_eq_zero c.replays isClose (fun m => rfl)
        (fun r => rfl)]
    have h4 : countE isClose (Event.load :: stealEvents c)
        = 0 + countE isClose (stealEvents c) := rfl
    rw [h4, h2, h3]
    rfl
  · rw [execPulls_drain, hTr]
    exact List.mem_append_right _ (List.mem_cons_self _ _)
  · intro hmem
    rw [hny, hTr] at hmem
    rw [execPulls_append_left _ _ _ (Nat.le_refl _)] at hmem
    exact hclose_pre (mem_execPulls hmem)

/-- Witness for C2 (amended) at a concrete temporary-directory instance,
a both-detectors Check and an always-succeeding provider. -/
theorem run_library_release_on_drain_only_witness :
    numConnects (runTrace stTmp checkBothW pAll) = 1 ∧
    numCloses (runTrace stTmp checkBothW pAll) = 1 ∧
    Event.closeLibrary ∈
      execPulls (runTrace stTmp checkBothW pAll)
        (numYields (runTrace stTmp checkBothW pAll) + 1) ∧
    Event.closeLibrary ∉
      execPulls (runTrace stTmp checkBothW pAll)
        (numYields (runTrace stTmp checkBothW pAll)) :=
  run_library_release_on_drain_only stTmp checkBothW pAll rfl rfl (by decide)

/-- C3 counterexample: a relax-only run over two replays on maps 1 and 2,
with a provider that fails only for map 1.  The failing lookup of the
first replay aborts the entire run: the trace ends at the propagated
error, the second replay — whose map is perfectly resolvable — produces
neither a result nor a skipped/insufficient-data signal, and the
temporary library is not even closed. -/
theorem run_provider_failure_aborts_cex :
    runTrace stTmp checkRelaxTwo pFail1
      = [Event.load, Event.connectLibrary, Event.lookup 1,
         Event.raiseError 1] ∧
    numYields (runTrace stTmp checkRelaxTwo pFail1) = 0 ∧
    pFail1 2 = some () := by
  decide

/-- C3 (amended): when the relax detector is enabled and the provider
fails for the map of one replay, the run is aborted at that replay: the
error propagates out of `run`, exactly the replays before the failing one
have produced their investigation result, and the replays after it
produce nothing. -/
theorem run_provider_failure_aborts (st : CGState) (c : Check)
    (p : Nat → Option Unit) (rs1 : List Replay) (r : Replay)
    (rs2 : List Replay) (hr : c.detect.relax = true)
    (hsplit : c.replays = rs1 ++ r :: rs2)
    (h1 : ∀ a ∈ rs1, p a.mapId ≠ none) (h2 : p r.mapId = none) :
    selectE isRelaxRes (runTrace st c p)
      = rs1.map (fun a => Event.yieldResult (Result.relax a)) ∧
    Event.raiseError r.mapId ∈ runTrace st c p := by
  have hloop : relaxLoop p c.replays
      = (relaxOk rs1 ++ [Event.lookup r.mapId, Event.raiseError r.mapId],
         true) := by
    rw [hsplit]
    exact relaxLoop_err p r rs2 h2 rs1 h1
  have hse := selectE_stealEvents_isRelaxRes c
  have hbody : selectE isRelaxRes
      (relaxOk rs1 ++ [Event.lookup r.mapId, Event.raiseError r.mapId])
      = rs1.map (fun a => Event.yieldResult (Result.relax a)) := by
    rw [selectE_append, selectE_relaxOk_relaxRes]
    simp [selectE, isRelaxRes]
  have hmem_body : Event.raiseError r.mapId ∈
      relaxOk rs1 ++ [Event.lookup r.mapId, Event.raiseError r.mapId] := by
    refine List.mem_append_right _ ?_
    exact List.mem_cons_of_mem _ (List.mem_cons_self _ _)
  cases hlib : st.library with
  | none =>
    have hre : relaxEvents st c p
        = Event.connectLibrary
          :: (relaxOk rs1 ++ [Event.lookup r.mapId, Event.raiseError r.mapId]) := by
      simp [relaxEvents, hr, hlib, hloop]
    constructor
    · rw [runTrace, hre]
      rw [selectE_cons_of_false _ _ _ rfl]
      rw [selectE_append, hse, List.nil_append]
      rw [selectE_cons_of_false _ _ _ rfl]
      exact hbody
    · rw [runTrace, hre]
      refine List.mem_cons_of_mem _ (List.mem_append_right _ ?_)
      exact List.mem_cons_of_mem _ hmem_body
  | some x =>
    have hre : relaxEvents st c p
        = relaxOk rs1 ++ [Event.lookup r.mapId, Event.raiseError r.mapId] := by
      simp [relaxEvents, hr, hlib, hloop]
    constructor
    · rw [runTrace, hre]
      rw [selectE_cons_of_false _ _ _ rfl]
      rw [selectE_append, hse, List.nil_append]
      exact hbody
    · rw [runTrace, hre]
      exact List.mem_cons_of_mem _ (List.mem_append_right _ hmem_body)

/-- Witness for C3 (amended): over three replays whose middle one is on
the failing map 1, exactly the first replay's result is produced and the
error propagates. -/
theorem run_provider_failure_aborts_witness :
    selectE isRelaxRes (runTrace stTmp checkRelaxThree pFail1)
      = [Event.yieldResult (Result.relax ⟨1, 2⟩)] ∧
    Event.raiseError 1 ∈ runTrace stTmp checkRelaxThree pFail1 :=
  run_provider_failure_aborts stTmp checkRelaxThree pFail1
    [⟨1, 2⟩] ⟨2, 1⟩ [⟨3, 3⟩] rfl rfl (by decide) rfl

/-- C4: `run` is a lazy, pull-driven pipeline.  Calling `run` executes
nothing; after `k` pulls only a prefix of the generator body has executed;
at most `k` results have been computed after `k` pulls; and each pull
stops exactly at a `yield` unless it exhausts the body — so a consumer
that stops pulling causes no further detector computation. -/
theorem run_is_pull_driven (st : CGState) (c : Check)
    (p : Nat → Option Unit) :
    execPulls (runTrace st c p) 0 = [] ∧
    (∀ k, ∃ rest, execPulls (runTrace st c p) k ++ rest = runTrace st c p) ∧
    (∀ k, numYields (execPulls (runTrace st c p) k) ≤ k) ∧
    (∀ k, execPulls (runTrace st c p) (k + 1) = runTrace st c p ∨
      ∃ r, (execPulls (runTrace st c p) (k + 1)).getLast?
        = some (Event.yieldResult r)) :=
  ⟨execPulls_zero _, fun k => execPulls_prefix _ k,
   fun k => numYields_execPulls_le _ k,
   fun k => execPulls_stops_at_yield _ k⟩

/-- C5: a Check with zero enabled detectors yields zero results and the
stream reaches exhaustion without error: the generator body is just the
load request. -/
theorem run_no_detectors_no_results (st : CGState) (c : Check)
    (p : Nat → Option Unit) (hs : c.detect.steal = false)
    (hr : c.detect.relax = false) :
    runTrace st c p = [Event.load] ∧
    numYields (runTrace st c p) = 0 ∧
    numRaises (runTrace st c p) = 0 := by
  have h : runTrace st c p = [Event.load] := by
    simp [runTrace, stealEvents, relaxEvents, hs, hr]
  exact ⟨h, by rw [h]; rfl, by rw [h]; rfl⟩

/-- Witness for C5 at a concrete zero-detector Check over two replays. -/
theorem run_no_detectors_no_results_witness :
    runTrace stTmp checkNoDetect pAll = [Event.load] ∧
    numYields (runTrace stTmp checkNoDetect pAll) = 0 ∧
    numRaises (runTrace stTmp checkNoDetect pAll) = 0 :=
  run_no_detectors_no_results stTmp checkNoDetect pAll rfl rfl

/-- C6: a run over an empty replay set yields zero results and raises no
error, for every enabled-detector configuration: the comparer enumerates
no pairs and the relax loop iterates zero times. -/
theorem run_empty_replays_no_results (st : CGState) (c : Check)
    (p : Nat → Option Unit) (h : c.replays = []) :
    numYields (runTrace st c p) = 0 ∧
    numRaises (runTrace st c p) = 0 := by
  have hcc : comparerCompare c.replays c.replays2 = [] := by
    rw [h]
    cases c.replays2 <;> rfl
  have hsE : stealEvents c = [] := by
    unfold stealEvents
    rw [hcc]
    simp
  have hloop : relaxLoop p c.replays = ([], false) := by
    rw [h]
    rfl
  have hrE : countE isYield (relaxEvents st c p) = 0 ∧
      countE isRaise (relaxEvents st c p) = 0 := by
    unfold relaxEvents
    rw [hloop]
    by_cases hr : c.detect.relax = true
    · rw [hr]
      cases st.library <;> simp [countE, isYield, isRaise]
    · simp at hr
      rw [hr]
      simp [countE]
  constructor
  · show countE isYield (runTrace st c p) = 0
    rw [runTrace, hsE]
    show (if isYield Event.load then 1 else 0)
      + countE isYield ([] ++ relaxEvents st c p) = 0
    rw [List.nil_append]
    simp [isYield, hrE.1]
  · show countE isRaise (runTrace st c p) = 0
    rw [runTrace, hsE]
    show (if isRaise Event.load then 1 else 0)
      + countE isRaise ([] ++ relaxEvents st c p) = 0
    rw [List.nil_append]
    simp [isRaise, hrE.2]

/-- Witness for C6 at a concrete both-detectors Check over zero replays. -/
theorem run_empty_replays_no_results_witness :
    numYields (runTrace stTmp checkEmptySet pAll) = 0 ∧
    numRaises (runTrace stTmp checkEmptySet pAll) = 0 :=
  run_empty_replays_no_results stTmp checkEmptySet pAll rfl

/-- C7 counterexample: two replays sharing map id 5 cause two
`lookup_by_id` requests in one run — the loop at circleguard.py line 113
issues one request per replay, not one per distinct map identifier. -/
theorem run_lookup_per_replay_cex :
    numLookups (runTrace stTmp checkSharedMap pAll) = 2 ∧
    checkSharedMap.replays.map Replay.mapId = [5, 5] := by
  decide

/-- C7 (amended): with relax enabled and every lookup succeeding, the
`lookup_by_id` requests of one run are exactly one request per replay of
the Check, in replay order — a map identifier shared by several replays
is requested once per such replay (deduplication, if any, lives inside
the external provider, and the core does not persist the beatmap). -/
theorem run_lookup_once_per_replay (st : CGState) (c : Check)
    (p : Nat → Option Unit) (hr : c.detect.relax = true)
    (hp : ∀ r ∈ c.replays, p r.mapId ≠ none) :
    selectE isLookup (runTrace st c p)
      = c.replays.map (fun r => Event.lookup r.mapId) := by
  have hloop := relaxLoop_ok p c.replays hp
  have hse := selectE_stealEvents_isLookup c
  cases hlib : st.library with
  | none =>
    have hre : relaxEvents st c p
        = Event.connectLibrary :: relaxOk c.replays ++ [Event.closeLibrary] := by
      simp [relaxEvents, hr, hlib, hloop]
    rw [runTrace, hre]
    rw [selectE_cons_of_false _ _ _ rfl]
    rw [selectE_append, hse, List.nil_append]
    rw [List.cons_append, selectE_cons_of_false _ _ _ rfl]
    rw [selectE_append, selectE_relaxOk_lookup]
    simp [selectE, isLookup]
  | some x =>
    have hre : relaxEvents st c p = relaxOk c.replays := by
      simp [relaxEvents, hr, hlib, hloop]
    rw [runTrace, hre]
    rw [selectE_cons_of_false _ _ _ rfl]
    rw [selectE_append, hse, List.nil_append]
    exact selectE_relaxOk_lookup c.replays

/-- Witness for C7 (amended) at a relax-only Check over two replays on
maps 1 and 2. -/
theorem run_lookup_once_per_replay_witness :
    selectE isLookup (runTrace stTmp checkRelaxTwo pAll)
      = [Event.lookup 1, Event.lookup 2] :=
  run_lookup_once_per_replay stTmp checkRelaxTwo pAll rfl (by decide)

/-- C8: when the relax detector is not enabled, `run` never touches the
slider Library: no connection, no `close()`, and no `lookup_by_id` call
appears in the trace, whatever the instance state and provider. -/
theorem run_relax_disabled_no_library (st : CGState) (c : Check)
    (p : Nat → Option Unit) (hr : c.detect.relax = false) :
    numConnects (runTrace st c p) = 0 ∧
    numCloses (runTrace st c p) = 0 ∧
    numLookups (runTrace st c p) = 0 := by
  have hre : relaxEvents st c p = [] := by
    simp [relaxEvents, hr]
  have key : ∀ P : Event → Bool, P Event.load = false →
      (∀ a b, P (Event.yieldResult (Result.steal a b)) = false) →
      countE P (runTrace st c p) = 0 := by
    intro P h0 hsP
    rw [runTrace, hre, List.append_nil]
    show (if P Event.load then 1 else 0) + countE P (stealEvents c) = 0
    rw [h0, countE_stealEvents_eq_zero c P hsP]
    rfl
  exact ⟨key isConnect rfl (fun a b => rfl), key isClose rfl (fun a b => rfl),
    key isLookup rfl (fun a b => rfl)⟩

/-- Witness for C8 at a concrete steal-only Check. -/
theorem run_relax_disabled_no_library_witness :
    numConnects (runTrace stTmp checkStealOnly pAll) = 0 ∧
    numCloses (runTrace stTmp checkStealOnly pAll) = 0 ∧
    numLookups (runTrace stTmp checkStealOnly pAll) = 0 :=
  run_relax_disabled_no_library stTmp checkStealOnly pAll rfl

/-- C9: calling `run(check)` by itself performs no side effects at all —
zero pulls execute zero events, so not even `c.load(self.loader)` has
run — while the very first pull does execute the load request. -/
theorem run_call_defers_all_effects (st : CGState) (c : Check)
    (p : Nat → Option Unit) :
    execPulls (runTrace st c p) 0 = [] ∧
    Event.load ∈ execPulls (runTrace st c p) 1 := by
  refine ⟨execPulls_zero _, ?_⟩
  rw [runTrace]
  show Event.load ∈ execPulls (Event.load :: _) 1
  rw [show execPulls (Event.load :: (stealEvents c ++ relaxEvents st c p)) 1
      = Event.load :: execPulls (stealEvents c ++ relaxEvents st c p) 1 by
    simp [execPulls, isYield]]
  exact List.mem_cons_self _ _

/-- C10: `set_options(cache=b)` on an instance constructed with
`db_path=None` first sets `self.cache` to `b` and then raises
`AttributeError` on `self.cacher.should_cache` (since `self.cacher` is
None); on an instance constructed with a non-None `db_path` it succeeds
and updates both `self.cache` and `self.cacher.should_cache`. -/
theorem set_options_requires_cacher (b cache0 : Bool)
    (sliderDir : Option Nat) :
    (Circleguard.init none sliderDir cache0).set_options (some b)
      = ({ cache := b, cacher := none, library := sliderDir },
         some PyError.attributeError) ∧
    ∀ dbp : Nat,
      (Circleguard.init (some dbp) sliderDir cache0).set_options (some b)
        = ({ cache := b, cacher := some { should_cache := b }
           , library := sliderDir }, none) := by
  exact ⟨rfl, fun dbp => rfl⟩
